import Mathlib

/-!
Verification of the auto-registration reconciliation engine of a Wild
Apricot command-line client.  The definitions below are a shallow
embedding of the Python source:

* `watools/commands/events.py`, function `auto_register` — access-control
  resolution, eligible-pool construction, pending-set reconciliation,
  status bucketing, registration-type selection, and the confirm/dry-run
  command flow;
* `watools/core/api.py`, functions `normalize_and_flatten_contacts` and
  `register_contacts_to_event` — contact normalization and retried bulk
  registration.

Python dictionaries carrying optional keys are embedded as structures
with `Option` fields; Python `x in list` tests become decidable list
membership; exceptions become `Except String`.
-/

namespace Watools

/-! ## Generic helpers: Python string membership `"needle" in hay` -/

/-- `startsWithSeq needle hay` is true when `hay` begins with `needle`
(character-by-character comparison, as Python substring search does). -/
def startsWithSeq : List Char → List Char → Bool
  | [], _ => true
  | _ :: _, [] => false
  | a :: as, b :: bs => a == b && startsWithSeq as bs

/-- `containsSeq needle hay` embeds the Python test `needle in hay` on
strings: `hay` has a contiguous substring equal to `needle`. -/
def containsSeq (needle : List Char) : List Char → Bool
  | [] => needle.isEmpty
  | hay@(_ :: rest) => startsWithSeq needle hay || containsSeq needle rest

/-- Python `str.lower()` restricted to the characters that occur in
registration-type names; embedded with `Char.toLower`. -/
def lowerChars (s : List Char) : List Char := s.map Char.toLower

/-- The case-insensitive marker searched for in registration-type names
(`"auto-register" in item["Name"].lower()` in `auto_register`). -/
def autoMarker : List Char := "auto-register".toList

/-- Python membership test `x in ids` where `x` may be `None`
(`None in ids` is `False` when `ids` holds integers only). -/
def optMem : Option Nat → List Nat → Bool
  | some v, ids => decide (v ∈ ids)
  | none, _ => false

/-! ## Data model

Mirrors the JSON dictionaries flowing through `auto_register`. -/

/-- One entry of the `Value` list of the system `Groups` field of a
contact: `group.get("Id")` may be absent. -/
structure GroupRef where
  gid : Option Nat
deriving DecidableEq

/-- One entry of a contact's `FieldValues` list: `field.get("SystemCode")`
and `field.get("Value", [])`. -/
structure FieldValue where
  systemCode : Option String
  value : List GroupRef
deriving DecidableEq

/-- A normalized contact as consumed by `auto_register`:
`contact["Id"]`, `contact["MembershipLevelId"]` (made total by
`normalize_and_flatten_contacts`, possibly `None`), the optional
`Status` value, and the `FieldValues` list. -/
structure Contact where
  id : Nat
  membershipLevelId : Option Nat
  status : Option String
  fieldValues : List FieldValue
deriving DecidableEq

/-- An event registrant record; `c.get("Contact",{}).get("Id")` yields
`None` when either key is missing. -/
structure Registrant where
  contactId : Option Nat
deriving DecidableEq

/-- A membership-level or member-group catalog item (`item["Id"]`). -/
structure Item where
  id : Nat
deriving DecidableEq

/-- A registration type of an event: `item["Id"]` and `item["Name"]`. -/
structure RegType where
  id : Nat
  name : List Char
deriving DecidableEq

/-- The `AccessControl` section of an event's `Details`:
`AvailableForAnyLevel`, `AvailableForLevels`, `AvailableForAnyGroup`,
`AvailableForGroups`. -/
structure AccessControl where
  availableForAnyLevel : Bool
  availableForLevels : List Item
  availableForAnyGroup : Bool
  availableForGroups : List Item
deriving DecidableEq

/-- The parts of an event dictionary used by `auto_register`:
`event["Name"]`, `event["Details"]["AccessControl"]` (possibly missing),
`event["Details"]["RegistrationTypes"]`. -/
structure Event where
  name : String
  accessControl : Option AccessControl
  registrationTypes : List RegType
deriving DecidableEq

/-! ## Contact normalization (`normalize_and_flatten_contacts`) -/

/-- The raw `MembershipLevel` entry of a fetched contact: the key may be
absent, hold a non-dict value, or hold a dict whose `Id` and `Name` keys
may themselves be absent. -/
inductive MLField where
  | absent
  | nonDict
  | dict (mid : Option Nat) (mname : Option String)
deriving DecidableEq

/-- A contact as fetched, before normalization. -/
structure RawContact where
  id : Nat
  membershipLevel : MLField
  status : Option String
  fieldValues : List FieldValue
deriving DecidableEq

/-- `flat["MembershipLevelId"] = ml.get("Id") if isinstance(ml, dict)
else None` in `normalize_and_flatten_contacts`. -/
def normalizeMLId : MLField → Option Nat
  | MLField.dict m _ => m
  | MLField.absent => none
  | MLField.nonDict => none

/-- Normalization of one contact record, as performed by
`normalize_and_flatten_contacts` on every fetched contact. -/
def normalizeContact (rc : RawContact) : Contact :=
  ⟨rc.id, normalizeMLId rc.membershipLevel, rc.status, rc.fieldValues⟩

/-! ## Eligible pool (`auto_register`, lines 203-223) -/

/-- The helper `contact_in_group` defined inside `auto_register`: scan
the contact's `FieldValues` for entries whose `SystemCode` is `"Groups"`
and test each listed group id for membership in `group_ids`. -/
def contact_in_group (c : Contact) (group_ids : List Nat) : Bool :=
  c.fieldValues.any (fun f =>
    f.systemCode == some "Groups" && f.value.any (fun g => optMem g.gid group_ids))

/-- `members_ids_by_level`: ids of contacts whose `MembershipLevelId`
occurs in the resolved level-id list. -/
def members_ids_by_level (contacts : List Contact) (level_ids : List Nat) : List Nat :=
  (contacts.filter (fun c => optMem c.membershipLevelId level_ids)).map Contact.id

/-- `member_ids_by_group`: ids of contacts that pass `contact_in_group`
for the resolved group-id list. -/
def member_ids_by_group (contacts : List Contact) (group_ids : List Nat) : List Nat :=
  (contacts.filter (fun c => contact_in_group c group_ids)).map Contact.id

/-- `temp_ids = list(set(members_ids_by_level + member_ids_by_group))`:
the eligible pool.  Python set order is irrelevant downstream (only
membership and deduplication are observed), so it is embedded as the
order-preserving `dedup` of the concatenation. -/
def eligiblePool (contacts : List Contact) (level_ids group_ids : List Nat) : List Nat :=
  (members_ids_by_level contacts level_ids ++ member_ids_by_group contacts group_ids).dedup

/-- `current_registrant_ids = [c.get("Contact",{}).get("Id") for c in registrants]`. -/
def current_registrant_ids (registrants : List Registrant) : List (Option Nat) :=
  registrants.map Registrant.contactId

/-- `potential_registrant_ids = [cid for cid in temp_ids if cid not in
current_registrant_ids]` — the pending set of the reconciliation. -/
def potential_registrant_ids (contacts : List Contact) (level_ids group_ids : List Nat)
    (registrants : List Registrant) : List Nat :=
  (eligiblePool contacts level_ids group_ids).filter
    (fun cid => !(decide (some cid ∈ current_registrant_ids registrants)))

/-! ## Access-control resolution (`auto_register`, lines 187-199) -/

/-- `membership_levels_ids` resolution: start from the account-wide
level-id catalog and override with the rule's explicit list unless the
rule allows any level. -/
def resolveLevelIds (ac : AccessControl) (defaultLevelIds : List Nat) : List Nat :=
  if !ac.availableForAnyLevel then (ac.availableForLevels.map Item.id) else defaultLevelIds

/-- `membergroup_ids` resolution, symmetric to `resolveLevelIds`. -/
def resolveGroupIds (ac : AccessControl) (defaultGroupIds : List Nat) : List Nat :=
  if !ac.availableForAnyGroup then (ac.availableForGroups.map Item.id) else defaultGroupIds

/-! ## Status bucketing (`auto_register`, lines 230-235) -/

/-- `contact.get("Status","Unknown")`. -/
def statusKey (c : Contact) : String := c.status.getD "Unknown"

/-- Append `cid` to the bucket of `key` in an association list embedding
of the `defaultdict(list)` named `status_groups` (insertion order of
keys preserved, values appended at the end). -/
def addToBucket (bs : List (String × List Nat)) (key : String) (cid : Nat) :
    List (String × List Nat) :=
  match bs with
  | [] => [(key, [cid])]
  | (k, v) :: rest =>
    if k = key then (k, v ++ [cid]) :: rest else (k, v) :: addToBucket rest key cid

/-- Bucket lookup; a missing key reads as the empty list, as
`defaultdict(list)` does. -/
def bucketGet (bs : List (String × List Nat)) (key : String) : List Nat :=
  match bs with
  | [] => []
  | (k, v) :: rest => if k = key then v else bucketGet rest key

/-- The `status_groups` loop: every contact whose id lies in the pending
set is appended to the bucket of its status key. -/
def status_groups (contacts : List Contact) (potential_ids : List Nat) :
    List (String × List Nat) :=
  contacts.foldl
    (fun bs c => if c.id ∈ potential_ids then addToBucket bs (statusKey c) c.id else bs)
    []

/-! ## Registration-type selection (`auto_register`, lines 250-262) -/

/-- `[item for item in registration_types if "auto-register" in
item["Name"].lower()]`. -/
def selectAutoTypes (registration_types : List RegType) : List RegType :=
  registration_types.filter (fun t => containsSeq autoMarker (lowerChars t.name))

/-- Fatal message of the zero-match branch (line 255). -/
def noAutoTypeMsg : String := "No auto-register registration types found for event ID"

/-- Fatal message of the multiple-match branch (line 260). -/
def multiAutoTypeMsg : String := "Multiple auto-register registration types found for event ID"

/-! ## Fetched inputs and the reconciliation pass

`auto_register` fetches the event, its registrants, the account's
contacts, membership levels, and member groups before deriving any set.
Each fetch may raise (network failure, non-success HTTP status, raised
as `RuntimeError` by `api_get` and friends); the whole body runs inside
`try ... except Exception`, so a raised fetch is caught, echoed and the
function returns.  `Env` packages the five fetch results. -/

structure Env where
  event : Except String (Option Event)
  registrants : Except String (List Registrant)
  contacts : Except String (List Contact)
  levels : Except String (List Item)
  groups : Except String (List Item)

/-- The pure reconciliation plan computed before the confirm branch:
the status buckets of pending contacts and the selected auto-register
registration type. -/
structure Plan where
  plan_status_groups : List (String × List Nat)
  regTypeId : Nat
  regTypeName : List Char
deriving DecidableEq

/-- The reconciliation pass of `auto_register` (lines 138-264): fetch
and validate the inputs in source order, resolve the access-control
rule, build the eligible pool, subtract current registrants, bucket by
status, and select the single auto-register registration type.  Every
early `return`-after-`logger.error`/`click.echo` branch and every
caught exception is an `Except.error`. -/
def reconcile (env : Env) : Except String Plan := do
  let eventOpt ← env.event
  let event ← match eventOpt with
    | none => Except.error "No event found with ID"
    | some e => Except.ok e
  let registrants ← env.registrants
  let contacts ← env.contacts
  if contacts.isEmpty then Except.error "No contacts found for account ID" else do
  let levels ← env.levels
  if levels.isEmpty then Except.error "No membership levels found for account ID" else do
  let groups ← env.groups
  if groups.isEmpty then Except.error "No member groups found for account ID" else do
  let accessControl ← match event.accessControl with
    | none => Except.error "No access control found for event ID"
    | some ac => Except.ok ac
  let default_membership_level_ids := (levels.map Item.id).dedup
  let default_membergroup_ids := (groups.map Item.id).dedup
  let membership_levels_ids := resolveLevelIds accessControl default_membership_level_ids
  let membergroup_ids := resolveGroupIds accessControl default_membergroup_ids
  let potential_ids := potential_registrant_ids contacts membership_levels_ids
    membergroup_ids registrants
  let buckets := status_groups contacts potential_ids
  if event.registrationTypes.isEmpty then
    Except.error "No registration types found for event ID" else do
  match selectAutoTypes event.registrationTypes with
  | [] => Except.error noAutoTypeMsg
  | [t] => Except.ok ⟨buckets, t.id, t.name⟩
  | _ :: _ :: _ => Except.error multiAutoTypeMsg

/-! ## Bulk registration (`register_contacts_to_event`, api.py 418-447)

Each attempted HTTP call either succeeds or raises; the outcomes are
abstracted as an oracle mapping the 1-based position of the contact in
the input list and the 1-based attempt number to a Bool. -/

/-- The retry loop `for attempt in range(1, max_retries + 1)` for the
contact at input position `i`, starting at attempt number `attempt`
with `rem` attempts remaining: returns whether a call succeeded and the
list of attempt numbers actually issued (the loop breaks on the first
success). -/
def runAttempts (oracle : Nat → Nat → Bool) (i : Nat) : Nat → Nat → Bool × List Nat
  | _, 0 => (false, [])
  | attempt, rem + 1 =>
    if oracle i attempt then (true, [attempt])
    else
      let r := runAttempts oracle i (attempt + 1) rem
      (r.1, attempt :: r.2)

/-- The aggregate result of a bulk call, together with the trace of
issued registration calls as (position, contactId, attempt) triples. -/
structure BulkResult where
  success : List Nat
  failed : List Nat
  calls : List (Nat × Nat × Nat)
deriving DecidableEq

/-- The contact loop of `register_contacts_to_event`, with `i` the
`enumerate(contact_ids, start=1)` counter: each contact is attempted up
to `max_retries` times, then appended to `success_ids` or `failed_ids`. -/
def registerBulkFrom (oracle : Nat → Nat → Bool) (max_retries : Nat) :
    Nat → List Nat → BulkResult
  | _, [] => ⟨[], [], []⟩
  | i, cid :: rest =>
    let a := runAttempts oracle i 1 max_retries
    let r := registerBulkFrom oracle max_retries (i + 1) rest
    ⟨if a.1 then cid :: r.success else r.success,
     if a.1 then r.failed else cid :: r.failed,
     a.2.map (fun att => (i, cid, att)) ++ r.calls⟩

/-- `register_contacts_to_event(contact_ids, ..., max_retries=3)`:
process the contacts in input order, positions counted from 1. -/
def register_contacts_to_event (oracle : Nat → Nat → Bool) (max_retries : Nat)
    (contact_ids : List Nat) : BulkResult :=
  registerBulkFrom oracle max_retries 1 contact_ids

/-! ## The command flow of `auto_register` (lines 268-305) -/

/-- A bulk-registration invocation issued by the command:
(status key, contact ids of that bucket, registration type id). -/
abbrev Call := String × List Nat × Nat

/-- What the command reports before returning: either a fatal message
(logged or echoed, then `return`), or the reconciliation report — the
per-status bucket counts and selected registration-type name logged at
lines 237-264, plus, after a confirmed run, the echoed per-status
(succeeded, failed) counts of lines 281-282 (empty in a dry run). -/
inductive Outcome where
  | fatal (msg : String)
  | report (bucketCounts : List (String × Nat)) (regTypeName : List Char)
      (results : List (String × Nat × Nat))
deriving DecidableEq

/-- The `auto_register` command body: run the reconciliation pass, and
only under `--confirm` iterate over `use_status`, issuing one bulk
registration per non-empty selected bucket.  Returns the outcome and
the list of issued bulk calls.  `oracle` abstracts the per-attempt
success of the underlying HTTP calls, keyed additionally by the status
bucket being processed. -/
def autoRegister (env : Env) (use_status : List String) (confirm : Bool)
    (oracle : String → Nat → Nat → Bool) : Outcome × List Call :=
  match reconcile env with
  | Except.error m => (Outcome.fatal m, [])
  | Except.ok plan =>
    let bucketCounts := plan.plan_status_groups.map (fun kv => (kv.1, kv.2.length))
    if confirm then
      if plan.plan_status_groups.isEmpty then
        (Outcome.report bucketCounts plan.regTypeName [], [])
      else
        let acts := use_status.filterMap (fun key =>
          let ids := bucketGet plan.plan_status_groups key
          if 0 < ids.length then some (key, ids) else none)
        let results := acts.map (fun a =>
          let r := register_contacts_to_event (oracle a.1) 3 a.2
          (a.1, r.success.length, r.failed.length))
        (Outcome.report bucketCounts plan.regTypeName results,
         acts.map (fun a => (a.1, a.2, plan.regTypeId)))
    else
      (Outcome.report bucketCounts plan.regTypeName [], [])

/-- How the Python function terminates: a normal `return` (click then
exits the process with status 0) or an exception escaping the function
(click would exit non-zero). -/
inductive PyResult where
  | ret (o : Outcome)
  | uncaught (e : String)
deriving DecidableEq

/-- Process exit status implied by each termination mode under click's
standalone command runner. -/
def exitCode : PyResult → Nat
  | PyResult.ret _ => 0
  | PyResult.uncaught _ => 1

/-- The command including its termination mode.  The entire body of
`auto_register` runs inside `try ... except Exception` whose handler
echoes and falls off the end, and every other path ends in `return`, so
the function always returns normally. -/
def autoRegisterCmd (env : Env) (use_status : List String) (confirm : Bool)
    (oracle : String → Nat → Nat → Bool) : PyResult × List Call :=
  let r := autoRegister env use_status confirm oracle
  (PyResult.ret r.1, r.2)

/-! ## Auxiliary definitions for the statements below -/

/-- Two command outcomes agree on the reconciliation they report: same
fatal message, or same bucket counts and registration-type name. -/
def sameReconciliation : Outcome → Outcome → Prop
  | Outcome.fatal m, Outcome.fatal m2 => m = m2
  | Outcome.report bc tn _, Outcome.report bc2 tn2 _ => bc = bc2 ∧ tn = tn2
  | _, _ => False

/-- An environment in which all five fetches succeed. -/
def mkEnv (ev : Event) (registrants : List Registrant) (contacts : List Contact)
    (levels groups : List Item) : Env :=
  ⟨Except.ok (some ev), Except.ok registrants, Except.ok contacts,
   Except.ok levels, Except.ok groups⟩

/-- A concrete event with exactly one auto-register registration type. -/
def evGood : Event :=
  ⟨"Gala", some ⟨false, [⟨10⟩], false, [⟨5⟩]⟩,
   [⟨3, "Standard".toList⟩, ⟨4, "Auto-Register 2024".toList⟩]⟩

/-- Concrete contacts: one matching by level, one only by group, one by
neither. -/
def contactsGood : List Contact :=
  [⟨1, some 10, some "Active", []⟩,
   ⟨2, some 20, some "Active", [⟨some "Groups", [⟨some 5⟩]⟩]⟩,
   ⟨3, some 30, some "Lapsed", []⟩]

/-- A concrete environment on which the whole command succeeds. -/
def envGood : Env := mkEnv evGood [⟨some 1⟩] contactsGood [⟨10⟩, ⟨20⟩, ⟨30⟩] [⟨5⟩]

/-- A concrete environment whose event has registration types but none
whose name contains the auto-register marker. -/
def envNoAuto : Env :=
  mkEnv ⟨"Gala", some ⟨true, [], true, []⟩, [⟨4, "General".toList⟩]⟩
    [] [⟨1, none, some "Active", []⟩] [⟨10⟩] [⟨5⟩]

/-! ## Basic lemmas about the eligible pool and the pending set -/

theorem mem_eligiblePool {contacts : List Contact} {level_ids group_ids : List Nat}
    {cid : Nat} :
    cid ∈ eligiblePool contacts level_ids group_ids ↔
      ∃ c ∈ contacts, c.id = cid ∧
        (optMem c.membershipLevelId level_ids = true ∨
          contact_in_group c group_ids = true) := by
  simp only [eligiblePool, List.mem_dedup, List.mem_append, members_ids_by_level,
    member_ids_by_group, List.mem_map, List.mem_filter]
  constructor
  · rintro (⟨c, ⟨hc, hl⟩, rfl⟩ | ⟨c, ⟨hc, hg⟩, rfl⟩)
    · exact ⟨c, hc, rfl, Or.inl hl⟩
    · exact ⟨c, hc, rfl, Or.inr hg⟩
  · rintro ⟨c, hc, rfl, hl | hg⟩
    · exact Or.inl ⟨c, ⟨hc, hl⟩, rfl⟩
    · exact Or.inr ⟨c, ⟨hc, hg⟩, rfl⟩

theorem contact_in_group_no_field {c : Contact} {group_ids : List Nat}
    (h : ∀ f ∈ c.fieldValues, f.systemCode ≠ some "Groups") :
    contact_in_group c group_ids = false := by
  simp only [contact_in_group, List.any_eq_false, Bool.and_eq_true, beq_iff_eq,
    not_and]
  intro f hf hcode
  exact absurd hcode (h f hf)

theorem mem_potential_registrant_ids {contacts : List Contact}
    {level_ids group_ids : List Nat} {registrants : List Registrant} {cid : Nat} :
    cid ∈ potential_registrant_ids contacts level_ids group_ids registrants ↔
      cid ∈ eligiblePool contacts level_ids group_ids ∧
        some cid ∉ current_registrant_ids registrants := by
  simp [potential_registrant_ids, List.mem_filter]

/-! ## Lemmas about status bucketing -/

theorem bucketGet_addToBucket_self (bs : List (String × List Nat)) (key : String)
    (cid : Nat) :
    bucketGet (addToBucket bs key cid) key = bucketGet bs key ++ [cid] := by
  induction bs with
  | nil => simp [addToBucket, bucketGet]
  | cons kv rest ih =>
    obtain ⟨k, v⟩ := kv
    by_cases h : k = key
    · simp [addToBucket, bucketGet, h]
    · simp [addToBucket, bucketGet, h, ih]

theorem bucketGet_addToBucket_ne (bs : List (String × List Nat)) (key key' : String)
    (cid : Nat) (h : key' ≠ key) :
    bucketGet (addToBucket bs key cid) key' = bucketGet bs key' := by
  induction bs with
  | nil =>
    simp only [addToBucket, bucketGet]
    rw [if_neg (show ¬key = key' from fun hk => h hk.symm)]
  | cons kv rest ih =>
    obtain ⟨k, v⟩ := kv
    by_cases hk : k = key
    · subst hk
      simp only [addToBucket, if_pos rfl, bucketGet]
      rw [if_neg (show ¬k = key' from fun hkk => h hkk.symm),
        if_neg (show ¬k = key' from fun hkk => h hkk.symm)]
    · simp only [addToBucket, if_neg hk]
      by_cases hk' : k = key'
      · simp [bucketGet, hk']
      · simp [bucketGet, hk', ih]

theorem mem_bucketGet_foldl_mono (potential_ids : List Nat) (key : String) (x : Nat) :
    ∀ (l : List Contact) (bs : List (String × List Nat)), x ∈ bucketGet bs key →
      x ∈ bucketGet
        (l.foldl (fun bs c =>
          if c.id ∈ potential_ids then addToBucket bs (statusKey c) c.id else bs) bs)
        key := by
  intro l
  induction l with
  | nil => intro bs h; exact h
  | cons c rest ih =>
    intro bs h
    simp only [List.foldl_cons]
    apply ih
    by_cases hc : c.id ∈ potential_ids
    · rw [if_pos hc]
      by_cases hk : statusKey c = key
      · rw [← hk] at h ⊢
        rw [bucketGet_addToBucket_self]
        exact List.mem_append_left _ h
      · rw [bucketGet_addToBucket_ne _ _ _ _ (fun he => hk he.symm)]
        exact h
    · rw [if_neg hc]
      exact h

theorem mem_bucketGet_status_aux (potential_ids : List Nat) (c : Contact)
    (hp : c.id ∈ potential_ids) :
    ∀ (contacts : List Contact) (bs : List (String × List Nat)), c ∈ contacts →
      c.id ∈ bucketGet
        (contacts.foldl (fun bs c =>
          if c.id ∈ potential_ids then addToBucket bs (statusKey c) c.id else bs) bs)
        (statusKey c) := by
  intro contacts
  induction contacts with
  | nil => intro bs h; cases h
  | cons d rest ih =>
    intro bs hmem
    rcases List.mem_cons.mp hmem with hceq | hrest
    · simp only [List.foldl_cons]
      apply mem_bucketGet_foldl_mono
      rw [← hceq, if_pos hp, bucketGet_addToBucket_self]
      exact List.mem_append_right _ (List.mem_singleton.mpr rfl)
    · simp only [List.foldl_cons]
      exact ih _ hrest

theorem mem_bucketGet_status_groups {contacts : List Contact} {potential_ids : List Nat}
    {c : Contact} (hc : c ∈ contacts) (hp : c.id ∈ potential_ids) :
    c.id ∈ bucketGet (status_groups contacts potential_ids) (statusKey c) :=
  mem_bucketGet_status_aux potential_ids c hp contacts [] hc

/-! ## Lemmas about the bulk registrar -/

theorem runAttempts_fail_fst (oracle : Nat → Nat → Bool) (i : Nat)
    (h : ∀ a, oracle i a = false) :
    ∀ (rem attempt : Nat), (runAttempts oracle i attempt rem).1 = false := by
  intro rem
  induction rem with
  | zero => intro attempt; rfl
  | succ n ih =>
    intro attempt
    simp only [runAttempts, h attempt, Bool.false_eq_true, if_false]
    exact ih (attempt + 1)

theorem runAttempts_fail_len (oracle : Nat → Nat → Bool) (i : Nat)
    (h : ∀ a, oracle i a = false) :
    ∀ (rem attempt : Nat), (runAttempts oracle i attempt rem).2.length = rem := by
  intro rem
  induction rem with
  | zero => intro attempt; rfl
  | succ n ih =>
    intro attempt
    simp only [runAttempts, h attempt, Bool.false_eq_true, if_false, List.length_cons]
    rw [ih (attempt + 1)]

theorem registerBulkFrom_calls_pos (oracle : Nat → Nat → Bool) (m : Nat) :
    ∀ (ids : List Nat) (j : Nat), ∀ t ∈ (registerBulkFrom oracle m j ids).calls,
      j ≤ t.1 := by
  intro ids
  induction ids with
  | nil => intro j t ht; cases ht
  | cons cid rest ih =>
    intro j t ht
    simp only [registerBulkFrom] at ht
    rcases List.mem_append.mp ht with hmap | htail
    · obtain ⟨att, _, rfl⟩ := List.mem_map.mp hmap
      exact le_refl j
    · exact le_trans (Nat.le_succ j) (ih (j + 1) t htail)

theorem registerBulkFrom_covers (oracle : Nat → Nat → Bool) (m : Nat) :
    ∀ (ids : List Nat) (j : Nat), ∀ c ∈ ids,
      c ∈ (registerBulkFrom oracle m j ids).success ∨
        c ∈ (registerBulkFrom oracle m j ids).failed := by
  intro ids
  induction ids with
  | nil => intro j c hc; cases hc
  | cons cid rest ih =>
    intro j c hc
    rcases List.mem_cons.mp hc with hceq | hrest
    · subst hceq
      cases hab : (runAttempts oracle j 1 m).1
      · right; simp [registerBulkFrom, hab]
      · left; simp [registerBulkFrom, hab]
    · rcases ih (j + 1) c hrest with h | h
      · left
        cases hab : (runAttempts oracle j 1 m).1 <;> simp [registerBulkFrom, hab, h]
      · right
        cases hab : (runAttempts oracle j 1 m).1 <;> simp [registerBulkFrom, hab, h]

theorem registerBulkFrom_success_sublist (oracle : Nat → Nat → Bool) (m : Nat) :
    ∀ (ids : List Nat) (j : Nat),
      List.Sublist (registerBulkFrom oracle m j ids).success ids := by
  intro ids
  induction ids with
  | nil => intro j; exact List.Sublist.refl []
  | cons cid rest ih =>
    intro j
    cases hab : (runAttempts oracle j 1 m).1
    · simpa [registerBulkFrom, hab] using List.Sublist.cons cid (ih (j + 1))
    · simpa [registerBulkFrom, hab] using List.Sublist.cons₂ cid (ih (j + 1))

theorem registerBulkFrom_failed_sublist (oracle : Nat → Nat → Bool) (m : Nat) :
    ∀ (ids : List Nat) (j : Nat),
      List.Sublist (registerBulkFrom oracle m j ids).failed ids := by
  intro ids
  induction ids with
  | nil => intro j; exact List.Sublist.refl []
  | cons cid rest ih =>
    intro j
    cases hab : (runAttempts oracle j 1 m).1
    · simpa [registerBulkFrom, hab] using List.Sublist.cons₂ cid (ih (j + 1))
    · simpa [registerBulkFrom, hab] using List.Sublist.cons cid (ih (j + 1))

theorem registerBulkFrom_length_sum (oracle : Nat → Nat → Bool) (m : Nat) :
    ∀ (ids : List Nat) (j : Nat),
      (registerBulkFrom oracle m j ids).success.length
        + (registerBulkFrom oracle m j ids).failed.length = ids.length := by
  intro ids
  induction ids with
  | nil => intro j; rfl
  | cons cid rest ih =>
    intro j
    have h := ih (j + 1)
    cases hab : (runAttempts oracle j 1 m).1 <;>
      simp only [registerBulkFrom, hab, Bool.false_eq_true, if_false, if_true,
        List.length_cons] <;> omega

theorem registerBulkFrom_disjoint (oracle : Nat → Nat → Bool) (m : Nat) :
    ∀ (ids : List Nat) (j : Nat), ids.Nodup → ∀ c : Nat,
      ¬(c ∈ (registerBulkFrom oracle m j ids).success ∧
        c ∈ (registerBulkFrom oracle m j ids).failed) := by
  intro ids
  induction ids with
  | nil =>
    intro j _ c hmem
    obtain ⟨hs, _⟩ := hmem
    cases hs
  | cons cid rest ih =>
    intro j hnd c hmem
    obtain ⟨hcid, hndr⟩ := List.nodup_cons.mp hnd
    obtain ⟨hs, hf⟩ := hmem
    cases hab : (runAttempts oracle j 1 m).1
    · simp only [registerBulkFrom, hab, Bool.false_eq_true, if_false] at hs hf
      rcases List.mem_cons.mp hf with hceq | hf'
      · subst hceq
        exact hcid ((registerBulkFrom_success_sublist oracle m rest (j + 1)).subset hs)
      · exact ih (j + 1) hndr c ⟨hs, hf'⟩
    · simp only [registerBulkFrom, hab, if_true] at hs hf
      rcases List.mem_cons.mp hs with hceq | hs'
      · subst hceq
        exact hcid ((registerBulkFrom_failed_sublist oracle m rest (j + 1)).subset hf)
      · exact ih (j + 1) hndr c ⟨hs', hf⟩

theorem bulk_fail_segment (oracle : Nat → Nat → Bool) (m : Nat) (cid : Nat)
    (post : List Nat) :
    ∀ (pre : List Nat) (j : Nat), (∀ a, oracle (j + pre.length) a = false) →
      ((registerBulkFrom oracle m j (pre ++ cid :: post)).calls.filter
          (fun t => decide (t.1 = j + pre.length))).length = m ∧
      (∀ t ∈ (registerBulkFrom oracle m j (pre ++ cid :: post)).calls,
        t.1 = j + pre.length → t.2.1 = cid) ∧
      cid ∈ (registerBulkFrom oracle m j (pre ++ cid :: post)).failed ∧
      (∀ c ∈ post,
        c ∈ (registerBulkFrom oracle m j (pre ++ cid :: post)).success ∨
          c ∈ (registerBulkFrom oracle m j (pre ++ cid :: post)).failed) := by
  intro pre
  induction pre with
  | nil =>
    intro j h
    simp only [List.length_nil, Nat.add_zero] at h
    simp only [List.nil_append, List.length_nil, Nat.add_zero, registerBulkFrom,
      runAttempts_fail_fst oracle j h m 1, Bool.false_eq_true, if_false]
    refine ⟨?_, ?_, List.mem_cons_self cid _, ?_⟩
    · rw [List.filter_append]
      have h1 : ((runAttempts oracle j 1 m).2.map (fun att => (j, cid, att))).filter
          (fun t => decide (t.1 = j)) = (runAttempts oracle j 1 m).2.map
          (fun att => (j, cid, att)) := by
        apply List.filter_eq_self.mpr
        intro t ht
        obtain ⟨att, _, rfl⟩ := List.mem_map.mp ht
        exact decide_eq_true rfl
      have h2 : (registerBulkFrom oracle m (j + 1) post).calls.filter
          (fun t => decide (t.1 = j)) = [] := by
        apply List.filter_eq_nil_iff.mpr
        intro t ht
        have := registerBulkFrom_calls_pos oracle m post (j + 1) t ht
        simp only [decide_eq_true_eq]
        omega
      rw [h1, h2, List.length_append, List.length_map, List.length_nil,
        runAttempts_fail_len oracle j h m 1]
      omega
    · intro t ht _
      rcases List.mem_append.mp ht with hmap | htail
      · obtain ⟨att, _, rfl⟩ := List.mem_map.mp hmap
        rfl
      · have := registerBulkFrom_calls_pos oracle m post (j + 1) t htail
        omega
    · intro c hc
      rcases registerBulkFrom_covers oracle m post (j + 1) c hc with hs | hf
      · exact Or.inl hs
      · exact Or.inr (List.mem_cons_of_mem cid hf)
  | cons p pre' ih =>
    intro j h
    have hpos : j + (p :: pre').length = (j + 1) + pre'.length := by
      simp only [List.length_cons]
      omega
    have h' : ∀ a, oracle ((j + 1) + pre'.length) a = false := by
      intro a
      rw [← hpos]
      exact h a
    obtain ⟨ih1, ih2, ih3, ih4⟩ := ih (j + 1) h'
    have hne : ∀ att : Nat, ((j, cid, att) : Nat × Nat × Nat).1 ≠ j + (p :: pre').length := by
      intro att
      simp only [List.length_cons]
      omega
    constructor
    · show ((registerBulkFrom oracle m j (p :: (pre' ++ cid :: post))).calls.filter
        (fun t => decide (t.1 = j + (p :: pre').length))).length = m
      simp only [registerBulkFrom, List.filter_append]
      have h1 : ((runAttempts oracle j 1 m).2.map (fun att => (j, p, att))).filter
          (fun t => decide (t.1 = j + (p :: pre').length)) = [] := by
        apply List.filter_eq_nil_iff.mpr
        intro t ht
        obtain ⟨att, _, rfl⟩ := List.mem_map.mp ht
        simp only [decide_eq_true_eq]
        simp only [List.length_cons]
        omega
      rw [h1, List.nil_append]
      rw [show j + (p :: pre').length = (j + 1) + pre'.length from hpos]
      exact ih1
    constructor
    · intro t ht hteq
      simp only [registerBulkFrom] at ht
      rcases List.mem_append.mp ht with hmap | htail
      · obtain ⟨att, _, rfl⟩ := List.mem_map.mp hmap
        exact absurd hteq (hne att)
      · exact ih2 t htail (by rw [hpos] at hteq; exact hteq)
    constructor
    · simp only [registerBulkFrom]
      cases hab : (runAttempts oracle j 1 m).1
      · simp only [Bool.false_eq_true, if_false]
        exact List.mem_cons_of_mem p ih3
      · simp only [if_true]
        exact ih3
    · intro c hc
      simp only [registerBulkFrom]
      rcases ih4 c hc with hs | hf
      · left
        cases hab : (runAttempts oracle j 1 m).1 <;> simp [hab, hs]
      · right
        cases hab : (runAttempts oracle j 1 m).1 <;> simp [hab, hf]

/-! ## Lemmas about the command flow -/

theorem bucketGet_mem (bs : List (String × List Nat)) (key : String)
    (h : bucketGet bs key ≠ []) : (key, bucketGet bs key) ∈ bs := by
  induction bs with
  | nil => exact absurd rfl h
  | cons kv rest ih =>
    obtain ⟨k, v⟩ := kv
    by_cases hk : k = key
    · subst hk
      rw [show bucketGet ((k, v) :: rest) k = v from by simp [bucketGet]] at h ⊢
      exact List.mem_cons_self _ _
    · rw [show bucketGet ((k, v) :: rest) key = bucketGet rest key from by
        simp [bucketGet, hk]] at h ⊢
      exact List.mem_cons_of_mem _ (ih h)

theorem autoRegister_fatal {env : Env} {m : String} (h : reconcile env = Except.error m)
    (us : List String) (confirm : Bool) (oracle : String → Nat → Nat → Bool) :
    autoRegister env us confirm oracle = (Outcome.fatal m, []) := by
  simp [autoRegister, h]

theorem reconcile_mkEnv (nm : String) (ac : AccessControl) (rts : List RegType)
    (registrants : List Registrant) (c0 : Contact) (cs : List Contact)
    (l0 : Item) (ls : List Item) (g0 : Item) (gs : List Item) (hrts : rts ≠ []) :
    reconcile (mkEnv ⟨nm, some ac, rts⟩ registrants (c0 :: cs) (l0 :: ls) (g0 :: gs)) =
      match selectAutoTypes rts with
      | [] => Except.error noAutoTypeMsg
      | [t] => Except.ok ⟨status_groups (c0 :: cs)
          (potential_registrant_ids (c0 :: cs)
            (resolveLevelIds ac (((l0 :: ls).map Item.id).dedup))
            (resolveGroupIds ac (((g0 :: gs).map Item.id).dedup)) registrants),
          t.id, t.name⟩
      | _ :: _ :: _ => Except.error multiAutoTypeMsg := by
  obtain ⟨r0, rs, rfl⟩ := List.exists_cons_of_ne_nil hrts
  rfl

/-! ## Claim theorems -/

/-- Claim C1: the eligible pool contains an id exactly when some listed
contact carries that id and matches by membership level or by group
(union of the two qualifying paths); a contact matching only by group is
in the pool, and a contact without the system Groups field is simply not
group-eligible (the scan is total, no error path exists). -/
theorem claim_C1_eligible_union (contacts : List Contact) (level_ids group_ids : List Nat) :
    (∀ cid : Nat, cid ∈ eligiblePool contacts level_ids group_ids ↔
      ∃ c ∈ contacts, c.id = cid ∧
        (optMem c.membershipLevelId level_ids = true ∨
          contact_in_group c group_ids = true)) ∧
    (∀ c ∈ contacts, contact_in_group c group_ids = true →
      c.id ∈ eligiblePool contacts level_ids group_ids) ∧
    (∀ c : Contact, (∀ f ∈ c.fieldValues, f.systemCode ≠ some "Groups") →
      contact_in_group c group_ids = false) := by
  refine ⟨fun _ => mem_eligiblePool, fun c hc hg => ?_, fun c h => contact_in_group_no_field h⟩
  exact mem_eligiblePool.mpr ⟨c, hc, rfl, Or.inr hg⟩

/-- Witness for C1: a contact whose membership level 20 is outside the
level set but who belongs to group 5 lands in the eligible pool. -/
theorem claim_C1_witness :
    2 ∈ eligiblePool [⟨2, some 20, some "Active", [⟨some "Groups", [⟨some 5⟩]⟩]⟩] [10] [5] :=
  (claim_C1_eligible_union [⟨2, some 20, some "Active", [⟨some "Groups", [⟨some 5⟩]⟩]⟩]
    [10] [5]).2.1 ⟨2, some 20, some "Active", [⟨some "Groups", [⟨some 5⟩]⟩]⟩
    (List.mem_singleton.mpr rfl) (by decide)

/-- Claim C2: the pending set is the set difference of the eligible pool
and the current registrant ids, hence contains no id carried by any
registrant; and the computation is deterministic, so two runs on the
same inputs agree. -/
theorem claim_C2_pending_diff (contacts : List Contact) (level_ids group_ids : List Nat)
    (registrants : List Registrant) :
    (∀ cid : Nat, cid ∈ potential_registrant_ids contacts level_ids group_ids registrants ↔
      (cid ∈ eligiblePool contacts level_ids group_ids ∧
        some cid ∉ current_registrant_ids registrants)) ∧
    (∀ r ∈ registrants, ∀ cid : Nat, r.contactId = some cid →
      cid ∉ potential_registrant_ids contacts level_ids group_ids registrants) ∧
    potential_registrant_ids contacts level_ids group_ids registrants =
      potential_registrant_ids contacts level_ids group_ids registrants := by
  refine ⟨fun _ => mem_potential_registrant_ids, ?_, rfl⟩
  intro r hr cid hcid hmem
  have h := (mem_potential_registrant_ids.mp hmem).2
  exact h (by simpa [current_registrant_ids, List.mem_map] using ⟨r, hr, hcid⟩)

/-- Witness for C2: with contact 2 already registered, 2 is not pending. -/
theorem claim_C2_witness :
    (⟨some 2⟩ : Registrant).contactId = some 2 ∧
    2 ∉ potential_registrant_ids [⟨2, some 10, some "Active", []⟩] [10] [] [⟨some 2⟩] :=
  ⟨rfl, (claim_C2_pending_diff [⟨2, some 10, some "Active", []⟩] [10] [] [⟨some 2⟩]).2.1
    ⟨some 2⟩ (List.mem_singleton.mpr rfl) 2 rfl⟩

/-- Claim C5: a rule allowing any level resolves to the account-wide
level-id catalog regardless of its explicit level list, otherwise to the
explicit list; symmetrically for groups. -/
theorem claim_C5_resolve_rule (ac : AccessControl) (allLevelIds allGroupIds : List Nat) :
    (ac.availableForAnyLevel = true → resolveLevelIds ac allLevelIds = allLevelIds) ∧
    (ac.availableForAnyLevel = false →
      resolveLevelIds ac allLevelIds = ac.availableForLevels.map Item.id) ∧
    (ac.availableForAnyGroup = true → resolveGroupIds ac allGroupIds = allGroupIds) ∧
    (ac.availableForAnyGroup = false →
      resolveGroupIds ac allGroupIds = ac.availableForGroups.map Item.id) := by
  refine ⟨?_, ?_, ?_, ?_⟩ <;> intro h <;> simp [resolveLevelIds, resolveGroupIds, h]

/-- Witness for C5: with AvailableForAnyLevel set, a non-empty explicit
level list is ignored; with AvailableForAnyGroup unset, the explicit
group list is used. -/
theorem claim_C5_witness :
    resolveLevelIds ⟨true, [⟨99⟩], false, [⟨5⟩]⟩ [1, 2] = [1, 2] ∧
    resolveGroupIds ⟨true, [⟨99⟩], false, [⟨5⟩]⟩ [7, 8] = [5] :=
  ⟨(claim_C5_resolve_rule ⟨true, [⟨99⟩], false, [⟨5⟩]⟩ [1, 2] [7, 8]).1 rfl,
   (claim_C5_resolve_rule ⟨true, [⟨99⟩], false, [⟨5⟩]⟩ [1, 2] [7, 8]).2.2.2 rfl⟩

/-- Claim C10: a contact whose raw MembershipLevel entry is missing or
not a dict normalizes to a null MembershipLevelId, is never
level-eligible for any resolved level set (in particular for the full
catalog produced by an any-level rule), and enters the eligible pool
only through group membership. -/
theorem claim_C10_no_level_path (rc : RawContact)
    (h : rc.membershipLevel = MLField.absent ∨ rc.membershipLevel = MLField.nonDict) :
    (normalizeContact rc).membershipLevelId = none ∧
    (∀ level_ids : List Nat,
      optMem (normalizeContact rc).membershipLevelId level_ids = false) ∧
    (∀ ac : AccessControl, ∀ allLevelIds : List Nat,
      optMem (normalizeContact rc).membershipLevelId
        (resolveLevelIds ac allLevelIds) = false) ∧
    (∀ level_ids group_ids : List Nat,
      (normalizeContact rc).id ∈ eligiblePool [normalizeContact rc] level_ids group_ids ↔
        contact_in_group (normalizeContact rc) group_ids = true) := by
  have hml : (normalizeContact rc).membershipLevelId = none := by
    rcases h with h | h <;> simp [normalizeContact, normalizeMLId, h]
  refine ⟨hml, fun _ => by simp [hml, optMem], fun _ _ => by simp [hml, optMem], ?_⟩
  intro level_ids group_ids
  rw [mem_eligiblePool]
  constructor
  · rintro ⟨c, hc, hid, hl | hg⟩
    · rw [List.mem_singleton] at hc
      rw [hc, hml] at hl
      simp [optMem] at hl
    · rw [List.mem_singleton] at hc
      rw [hc] at hg
      exact hg
  · intro hg
    exact ⟨normalizeContact rc, List.mem_singleton.mpr rfl, rfl, Or.inr hg⟩

/-- Witness for C10: a raw contact with no MembershipLevel key is not
level-eligible even for a full catalog. -/
theorem claim_C10_witness :
    ((⟨7, MLField.absent, some "Active", []⟩ : RawContact).membershipLevel = MLField.absent ∨
      (⟨7, MLField.absent, some "Active", []⟩ : RawContact).membershipLevel = MLField.nonDict) ∧
    optMem (normalizeContact ⟨7, MLField.absent, some "Active", []⟩).membershipLevelId
      [10, 20] = false :=
  ⟨Or.inl rfl,
   (claim_C10_no_level_path ⟨7, MLField.absent, some "Active", []⟩ (Or.inl rfl)).2.1 [10, 20]⟩

/-- Counterexample to C8 as stated: a pending contact with the present
but unrecognized status value Suspended is bucketed under Suspended,
not under Unknown — the Unknown bucket stays empty. -/
theorem claim_C8_counterexample :
    status_groups [⟨1, some 10, some "Suspended", []⟩] [1] = [("Suspended", [1])] ∧
    1 ∉ bucketGet (status_groups [⟨1, some 10, some "Suspended", []⟩] [1]) "Unknown" ∧
    1 ∈ bucketGet (status_groups [⟨1, some 10, some "Suspended", []⟩] [1]) "Suspended" := by
  refine ⟨rfl, by decide, by decide⟩

/-- Claim C8 amended: bucketing groups each pending contact id under the
contact's status value; a contact whose Status key is missing falls into
the bucket Unknown, while a present status value — recognized or not —
names its own bucket verbatim. -/
theorem claim_C8_amended_bucketing (contacts : List Contact) (potential_ids : List Nat) :
    (∀ c ∈ contacts, c.id ∈ potential_ids →
      c.id ∈ bucketGet (status_groups contacts potential_ids) (statusKey c)) ∧
    (∀ c : Contact, c.status = none → statusKey c = "Unknown") ∧
    (∀ c : Contact, ∀ s : String, c.status = some s → statusKey c = s) := by
  refine ⟨fun c hc hp => mem_bucketGet_status_groups hc hp, ?_, ?_⟩
  · intro c h
    simp [statusKey, h]
  · intro c s h
    simp [statusKey, h]

/-- Witness for C8 amended: a pending Active contact lands in the
Active bucket. -/
theorem claim_C8_witness :
    (⟨1, none, some "Active", []⟩ : Contact) ∈ [(⟨1, none, some "Active", []⟩ : Contact)] ∧
    1 ∈ bucketGet (status_groups [⟨1, none, some "Active", []⟩] [1])
      (statusKey ⟨1, none, some "Active", []⟩) :=
  ⟨List.mem_singleton.mpr rfl,
   (claim_C8_amended_bucketing [⟨1, none, some "Active", []⟩] [1]).1
     ⟨1, none, some "Active", []⟩ (List.mem_singleton.mpr rfl) (by decide)⟩

/-- Claim C4: a contact whose registration calls always fail is
attempted exactly max_retries times (every issued call at its input
position carries its id), is recorded in the failed list, and every
subsequent contact of the input is still processed into the success or
failed list. -/
theorem claim_C4_retry_exhaustion (oracle : Nat → Nat → Bool) (max_retries : Nat)
    (pre post : List Nat) (cid : Nat)
    (hfail : ∀ a, oracle (1 + pre.length) a = false) :
    ((register_contacts_to_event oracle max_retries (pre ++ cid :: post)).calls.filter
        (fun t => decide (t.1 = 1 + pre.length))).length = max_retries ∧
    (∀ t ∈ (register_contacts_to_event oracle max_retries (pre ++ cid :: post)).calls,
      t.1 = 1 + pre.length → t.2.1 = cid) ∧
    cid ∈ (register_contacts_to_event oracle max_retries (pre ++ cid :: post)).failed ∧
    (∀ c ∈ post,
      c ∈ (register_contacts_to_event oracle max_retries (pre ++ cid :: post)).success ∨
        c ∈ (register_contacts_to_event oracle max_retries (pre ++ cid :: post)).failed) :=
  bulk_fail_segment oracle max_retries cid post pre 1 hfail

/-- Witness for C4: with every call failing, contact 5 (at position 1)
is placed in the failed list while contact 9 after it is still
processed. -/
theorem claim_C4_witness :
    (∀ a : Nat, (fun _ _ => (false : Bool)) (1 + ([] : List Nat).length) a = false) ∧
    5 ∈ (register_contacts_to_event (fun _ _ => false) 3 ([] ++ 5 :: [9])).failed :=
  ⟨fun _ => rfl,
   (claim_C4_retry_exhaustion (fun _ _ => false) 3 [] [9] 5 (fun _ => rfl)).2.2.1⟩

/-- Claim C3: when the fetched inputs are all present, registration-type
selection filters the event's types by the case-insensitive marker
auto-register and requires exactly one match: zero matches makes the
reconciliation fail with the no-auto-type error, two or more with the
ambiguity error, and in either failure case the command reports a fatal
outcome and issues no registration call. -/
theorem claim_C3_auto_type_selection (nm : String) (ac : AccessControl)
    (rts : List RegType) (registrants : List Registrant) (contacts : List Contact)
    (levels groups : List Item) (use_status : List String) (confirm : Bool)
    (oracle : String → Nat → Nat → Bool)
    (hc : contacts ≠ []) (hl : levels ≠ []) (hg : groups ≠ []) (hrts : rts ≠ [])
    (hsel : (selectAutoTypes rts).length ≠ 1) :
    (selectAutoTypes rts = [] →
      reconcile (mkEnv ⟨nm, some ac, rts⟩ registrants contacts levels groups) =
        Except.error noAutoTypeMsg) ∧
    (2 ≤ (selectAutoTypes rts).length →
      reconcile (mkEnv ⟨nm, some ac, rts⟩ registrants contacts levels groups) =
        Except.error multiAutoTypeMsg) ∧
    (autoRegister (mkEnv ⟨nm, some ac, rts⟩ registrants contacts levels groups)
      use_status confirm oracle).2 = [] ∧
    (∃ m, (autoRegister (mkEnv ⟨nm, some ac, rts⟩ registrants contacts levels groups)
      use_status confirm oracle).1 = Outcome.fatal m) := by
  obtain ⟨c0, cs, rfl⟩ := List.exists_cons_of_ne_nil hc
  obtain ⟨l0, ls, rfl⟩ := List.exists_cons_of_ne_nil hl
  obtain ⟨g0, gs, rfl⟩ := List.exists_cons_of_ne_nil hg
  have hred := reconcile_mkEnv nm ac rts registrants c0 cs l0 ls g0 gs hrts
  cases hs : selectAutoTypes rts with
  | nil =>
    rw [hs] at hred
    refine ⟨fun _ => hred, fun h2 => ?_, ?_, ?_⟩
    · simp at h2
    · rw [autoRegister_fatal hred use_status confirm oracle]
    · exact ⟨noAutoTypeMsg, by rw [autoRegister_fatal hred use_status confirm oracle]⟩
  | cons t ts =>
    cases ts with
    | nil =>
      rw [hs] at hsel
      simp at hsel
    | cons t2 ts2 =>
      rw [hs] at hred
      refine ⟨fun h0 => ?_, fun _ => hred, ?_, ?_⟩
      · cases h0
      · rw [autoRegister_fatal hred use_status confirm oracle]
      · exact ⟨multiAutoTypeMsg, by rw [autoRegister_fatal hred use_status confirm oracle]⟩

/-- Witness for C3: an event whose single registration type lacks the
marker makes the reconciliation fail with the no-auto-type error. -/
theorem claim_C3_witness :
    reconcile (mkEnv ⟨"Gala", some ⟨true, [], true, []⟩, [⟨4, "General".toList⟩]⟩ []
      [⟨1, none, some "Active", []⟩] [⟨10⟩] [⟨5⟩]) = Except.error noAutoTypeMsg :=
  (claim_C3_auto_type_selection "Gala" ⟨true, [], true, []⟩ [⟨4, "General".toList⟩] []
    [⟨1, none, some "Active", []⟩] [⟨10⟩] [⟨5⟩] ["Active"] false (fun _ _ _ => true)
    (by decide) (by decide) (by decide) (by decide) (by decide)).1 (by decide)

/-- Counterexample to C9 as stated: with a duplicated input id whose
first occurrence succeeds and second fails, the same id appears in both
the success and the failed list, so the two lists are not disjoint and
the id does not occur in exactly one of them. -/
theorem claim_C9_counterexample :
    5 ∈ (register_contacts_to_event (fun i _ => i == 1) 3 [5, 5]).success ∧
    5 ∈ (register_contacts_to_event (fun i _ => i == 1) 3 [5, 5]).failed := by
  decide

/-- Claim C9 amended: the success and failed lists partition the input
occurrences — their lengths sum to the input length, each is a sublist
of the input (hence preserves relative input order), every input id
occurs in at least one of them and only input ids occur; when the input
has no duplicate ids the two lists are moreover disjoint, so every
input id occurs in exactly one of them. -/
theorem claim_C9_amended_partition (oracle : Nat → Nat → Bool) (max_retries : Nat)
    (contact_ids : List Nat) :
    (register_contacts_to_event oracle max_retries contact_ids).success.length
      + (register_contacts_to_event oracle max_retries contact_ids).failed.length
      = contact_ids.length ∧
    List.Sublist (register_contacts_to_event oracle max_retries contact_ids).success
      contact_ids ∧
    List.Sublist (register_contacts_to_event oracle max_retries contact_ids).failed
      contact_ids ∧
    (∀ c : Nat, c ∈ contact_ids ↔
      (c ∈ (register_contacts_to_event oracle max_retries contact_ids).success ∨
        c ∈ (register_contacts_to_event oracle max_retries contact_ids).failed)) ∧
    (contact_ids.Nodup → ∀ c : Nat,
      ¬(c ∈ (register_contacts_to_event oracle max_retries contact_ids).success ∧
        c ∈ (register_contacts_to_event oracle max_retries contact_ids).failed)) := by
  refine ⟨registerBulkFrom_length_sum oracle max_retries contact_ids 1,
    registerBulkFrom_success_sublist oracle max_retries contact_ids 1,
    registerBulkFrom_failed_sublist oracle max_retries contact_ids 1, ?_, ?_⟩
  · intro c
    constructor
    · exact registerBulkFrom_covers oracle max_retries contact_ids 1 c
    · rintro (h | h)
      · exact (registerBulkFrom_success_sublist oracle max_retries contact_ids 1).subset h
      · exact (registerBulkFrom_failed_sublist oracle max_retries contact_ids 1).subset h
  · intro hnd
    exact registerBulkFrom_disjoint oracle max_retries contact_ids 1 hnd

/-- Claim C6: without the confirmation flag the command issues no bulk
registration call and reports no per-status results, while still
computing the same reconciliation (same fatality, same bucket counts and
registration-type name) as a confirmed run; with the flag, every issued
call targets a status key of the caller's filter. -/
theorem claim_C6_dry_run_frame (env : Env) (use_status : List String)
    (oracle : String → Nat → Nat → Bool) :
    (autoRegister env use_status false oracle).2 = [] ∧
    (∀ bc tn res, (autoRegister env use_status false oracle).1 = Outcome.report bc tn res →
      res = []) ∧
    sameReconciliation (autoRegister env use_status false oracle).1
      (autoRegister env use_status true oracle).1 ∧
    (∀ call ∈ (autoRegister env use_status true oracle).2, call.1 ∈ use_status) := by
  cases hrec : reconcile env with
  | error m =>
    refine ⟨?_, ?_, ?_, ?_⟩
    · simp [autoRegister, hrec]
    · intro bc tn res h
      simp [autoRegister, hrec] at h
    · simp [autoRegister, hrec, sameReconciliation]
    · intro call hcall
      simp [autoRegister, hrec] at hcall
  | ok plan =>
    refine ⟨?_, ?_, ?_, ?_⟩
    · simp [autoRegister, hrec]
    · intro bc tn res h
      simp only [autoRegister, hrec] at h
      exact (Outcome.report.injEq _ _ _ _ _ _).mp h.symm |>.2.2
    · by_cases hempty : plan.plan_status_groups.isEmpty
      · simp [autoRegister, hrec, hempty, sameReconciliation]
      · simp [autoRegister, hrec, hempty, sameReconciliation]
    · intro call hcall
      by_cases hempty : plan.plan_status_groups.isEmpty
      · simp [autoRegister, hrec, hempty] at hcall
      · simp only [autoRegister, hrec, hempty, Bool.false_eq_true, if_false,
          if_true] at hcall
        obtain ⟨a, ha, rfl⟩ := List.mem_map.mp hcall
        obtain ⟨key, hkey, hfa⟩ := List.mem_filterMap.mp ha
        by_cases hlen : 0 < (bucketGet plan.plan_status_groups key).length
        · rw [if_pos hlen] at hfa
          obtain rfl := (Option.some.injEq _ _).mp hfa
          exact hkey
        · rw [if_neg hlen] at hfa
          cases hfa

/-- Witness for C6: on a concrete fully-populated environment the
dry run issues no registration call. -/
theorem claim_C6_witness :
    (autoRegister envGood ["Active"] false (fun _ _ _ => true)).2 = [] :=
  (claim_C6_dry_run_frame envGood ["Active"] (fun _ _ _ => true)).1

/-- Counterexample to C7 as stated: a run hitting the fatal
zero-auto-register-types error returns normally (the message is only
logged), so under the click runner the process exits with status 0,
not a non-zero status. -/
theorem claim_C7_counterexample :
    (autoRegisterCmd envNoAuto ["Active"] false (fun _ _ _ => true)).1
      = PyResult.ret (Outcome.fatal noAutoTypeMsg) ∧
    exitCode (autoRegisterCmd envNoAuto ["Active"] false (fun _ _ _ => true)).1 = 0 :=
  ⟨rfl, rfl⟩

/-- Claim C7 amended: every run of the command — fatal or not — returns
normally and exits with status zero; a fatal run reports its message and
issues no registration call; a confirmed run reports per-status
succeeded and failed counts that sum to the size of the corresponding
reported bucket. -/
theorem claim_C7_amended_exit_behavior (env : Env) (use_status : List String)
    (confirm : Bool) (oracle : String → Nat → Nat → Bool) :
    exitCode (autoRegisterCmd env use_status confirm oracle).1 = 0 ∧
    (∀ m, (autoRegisterCmd env use_status confirm oracle).1
        = PyResult.ret (Outcome.fatal m) →
      (autoRegisterCmd env use_status confirm oracle).2 = []) ∧
    (∀ bc tn res, (autoRegisterCmd env use_status confirm oracle).1
        = PyResult.ret (Outcome.report bc tn res) →
      ∀ e ∈ res, ∃ n : Nat, (e.1, n) ∈ bc ∧ e.2.1 + e.2.2 = n) := by
  refine ⟨rfl, ?_, ?_⟩
  · intro m h
    cases hrec : reconcile env with
    | error m2 => simp [autoRegisterCmd, autoRegister, hrec]
    | ok plan =>
      exfalso
      cases confirm
      · simp [autoRegisterCmd, autoRegister, hrec] at h
      · by_cases hempty : plan.plan_status_groups.isEmpty <;>
          simp [autoRegisterCmd, autoRegister, hrec, hempty] at h
  · intro bc tn res h e he
    cases hrec : reconcile env with
    | error m2 =>
      exfalso
      simp [autoRegisterCmd, autoRegister, hrec] at h
    | ok plan =>
      cases confirm
      · simp only [autoRegisterCmd, autoRegister, hrec, Bool.false_eq_true,
          if_false] at h
        obtain ⟨-, -, rfl⟩ := (PyResult.ret.injEq _ _).mp h
          |> (Outcome.report.injEq _ _ _ _ _ _).mp
        cases he
      · by_cases hempty : plan.plan_status_groups.isEmpty
        · simp only [autoRegisterCmd, autoRegister, hrec, hempty, if_true] at h
          obtain ⟨-, -, rfl⟩ := (PyResult.ret.injEq _ _).mp h
            |> (Outcome.report.injEq _ _ _ _ _ _).mp
          cases he
        · simp only [autoRegisterCmd, autoRegister, hrec, hempty,
            Bool.false_eq_true, if_false, if_true] at h
          obtain ⟨hbc, -, hres⟩ := (PyResult.ret.injEq _ _).mp h
            |> (Outcome.report.injEq _ _ _ _ _ _).mp
          subst hbc
          rw [← hres] at he
          obtain ⟨a, ha, rfl⟩ := List.mem_map.mp he
          obtain ⟨key, hkey, hfa⟩ := List.mem_filterMap.mp ha
          by_cases hlen : 0 < (bucketGet plan.plan_status_groups key).length
          · rw [if_pos hlen] at hfa
            obtain rfl := (Option.some.injEq _ _).mp hfa
            refine ⟨(bucketGet plan.plan_status_groups key).length, ?_, ?_⟩
            · exact List.mem_map.mpr ⟨(key, bucketGet plan.plan_status_groups key),
                bucketGet_mem _ _ (by intro hnil; rw [hnil] at hlen; cases hlen), rfl⟩
            · exact registerBulkFrom_length_sum (oracle key) 3
                (bucketGet plan.plan_status_groups key) 1
          · rw [if_neg hlen] at hfa
            cases hfa

/-- Witness for C7 amended: a confirmed run on a concrete environment
exits with status zero. -/
theorem claim_C7_witness :
    exitCode (autoRegisterCmd envGood ["Active"] true (fun _ _ _ => true)).1 = 0 :=
  (claim_C7_amended_exit_behavior envGood ["Active"] true (fun _ _ _ => true)).1

/-- Witness for C9 amended: on a duplicate-free input the lists are a
disjoint partition. -/
theorem claim_C9_witness :
    (register_contacts_to_event (fun i _ => i == 1) 3 [5, 9]).success.length
      + (register_contacts_to_event (fun i _ => i == 1) 3 [5, 9]).failed.length = 2 ∧
    ([5, 9] : List Nat).Nodup ∧
    ¬(5 ∈ (register_contacts_to_event (fun i _ => i == 1) 3 [5, 9]).success ∧
      5 ∈ (register_contacts_to_event (fun i _ => i == 1) 3 [5, 9]).failed) :=
  ⟨(claim_C9_amended_partition (fun i _ => i == 1) 3 [5, 9]).1, by decide,
   (claim_C9_amended_partition (fun i _ => i == 1) 3 [5, 9]).2.2.2.2 (by decide) 5⟩

end Watools
